import Mathlib

/-!
Verification development for the journaling pipeline in
`src/server/journal_gpt.py`.

The Python module stores journal entries as vectorized records in a Qdrant
collection and retrieves them for retrieval-augmented analysis.  We embed the
core operations shallowly:

* A Qdrant point is a `Record`: an id plus a payload.  The payload written by
  `store_journal_entry` (via langchain's `add_texts`) is
  `{page_content: text, metadata: {user_id, timestamp, type}}`; we flatten the
  nested `metadata` dict into optional fields (an absent field models a missing
  dict key, which is exactly what the code's `.get(..., default)` calls probe).
* The external providers are parameters: the embedding of the query together
  with Qdrant's cosine ranking is abstracted by a similarity score
  `score : Record → Int` (higher = closer to the query), and whether the
  semantic step raises is a `SemOutcome` parameter (the embedding call and the
  index search can each fail).  The completion provider is a function from the
  message list to the generated text.
* Python's `sorted(..., reverse=True)` is a stable descending sort, embedded
  with `List.insertionSort` (stable sorts of a list under a total preorder are
  extensionally unique, so this is exactly CPython's `sorted`); Python's slice
  `lst[:limit]` for an arbitrary signed `limit` is embedded by `pyTake`.
* Machine-level effects (actual network calls) are reflected only as call
  counters, so that claims about "no provider call is made" are statable.
-/

/-- Flattened Qdrant payload.  `user_id`, `timestamp` and `type` live inside
the nested `metadata` dict in the real payload; `page_content` is langchain's
top-level text field.  `none` models an absent key. -/
structure Payload where
  user_id : Option String
  type : Option String
  timestamp : Option Int
  page_content : Option String
deriving DecidableEq, Repr

/-- A stored Qdrant point: unique id plus payload. -/
structure Record where
  id : String
  payload : Payload
deriving DecidableEq, Repr

/-- The exact-match filter used by both `qdrant.scroll` (keys
`metadata.user_id`, `metadata.type`) and `vectorstore.similarity_search`
(keys `user_id`, `type`, which langchain prefixes with `metadata.`): the
record matches iff both keys are present and equal to the requested values. -/
def isUserJournal (user_id : String) (r : Record) : Bool :=
  r.payload.user_id == some user_id && r.payload.type == some "journal"

/-- `qdrant.scroll(collection, scroll_filter=..., limit=100)[0]`: the matching
records in storage order, capped at 100. -/
def scroll (db : List Record) (user_id : String) : List Record :=
  (db.filter (isUserJournal user_id)).take 100

/-- Sort key of the fallback branch:
`x.payload.get('metadata', {}).get('timestamp', 0)` — a record without a
timestamp counts as timestamp 0. -/
def fallbackKey (r : Record) : Int :=
  r.payload.timestamp.getD 0

/-- `sorted(entries, key=..., reverse=True)`: stable sort by descending
`fallbackKey`. -/
def sortRecent (l : List Record) : List Record :=
  l.insertionSort (fun a b => fallbackKey b ≤ fallbackKey a)

/-- Python's slice `l[:n]` for a signed `n`: a nonnegative `n` keeps the first
`n` elements, a negative `n` drops the last `-n` elements. -/
def pyTake (n : Int) (l : List α) : List α :=
  if 0 ≤ n then l.take n.toNat else l.take (l.length - (-n).toNat)

/-- The fallback list comprehension
`[e.payload.get('page_content', '') for e in recent if e.payload.get('page_content')]`:
keeps a record's text only when the key is present and the string truthy
(non-empty). -/
def fallbackText (r : Record) : Option String :=
  match r.payload.page_content with
  | some s => if s == "" then none else some s
  | none => none

/-- `doc.page_content` of a search hit (empty string when absent). -/
def recordText (r : Record) : String :=
  r.payload.page_content.getD ""

/-- Qdrant's cosine ranking of the filtered collection, abstracted over the
similarity score of each record against the (already embedded) query:
descending stable sort by `score`. -/
def rankBySim (score : Record → Int) (l : List Record) : List Record :=
  l.insertionSort (fun a b => score b ≤ score a)

/-- Outcome of the semantic step inside the `try` block: the query embedding
and the index search each either succeed or raise.  The `except Exception`
clause of the source cannot tell the two failure modes apart. -/
inductive SemOutcome
  | success
  | embedFail
  | searchFail
deriving DecidableEq, Repr

/-- Counters for the external calls issued by one `get_relevant_entries`
invocation: `scrollCalls` counts `qdrant.scroll`, `semanticCalls` counts
attempts of the embed-and-search step (`vectorstore.similarity_search`). -/
structure Calls where
  scrollCalls : Nat
  semanticCalls : Nat
deriving DecidableEq, Repr

/-- Result of `get_relevant_entries`: the returned texts plus the calls made. -/
structure SearchResult where
  texts : List String
  calls : Calls
deriving DecidableEq, Repr

/-- `get_relevant_entries(user_id, query, limit)`.

The query string only influences the result through the abstracted similarity
`score` and the semantic outcome `out`, so it is not a separate argument.

Faithful to the source: `scroll` always runs first; an empty scroll returns
`[]` at once; otherwise the semantic step is attempted with
`k = min(limit, len(all_user_entries))` and, if it raises (for any reason —
the `except` is a catch-all), the recency fallback sorts the scrolled records
by descending timestamp, slices with `[:limit]`, and keeps the truthy texts. -/
def get_relevant_entries (db : List Record) (score : Record → Int)
    (out : SemOutcome) (user_id : String) (limit : Int) : SearchResult :=
  let all_user_entries := scroll db user_id
  if all_user_entries.isEmpty then
    ⟨[], ⟨1, 0⟩⟩
  else
    match out with
    | .success =>
      let k : Int := min limit (all_user_entries.length : Int)
      let ranked := rankBySim score (db.filter (isUserJournal user_id))
      ⟨(ranked.take k.toNat).map recordText, ⟨1, 1⟩⟩
    | _ =>
      let recent_entries := pyTake limit (sortRecent all_user_entries)
      ⟨recent_entries.filterMap fallbackText, ⟨1, 1⟩⟩

/-- A chat message as passed to `client.chat.completions.create`. -/
structure ChatMessage where
  role : String
  content : String
deriving DecidableEq, Repr

/-- The fixed system prompt of `get_ai_feedback` (the JSON template braces and
apostrophes are written with hex escapes). -/
def feedback_system_prompt : String :=
  "\nYou are a compassionate AI trained in CBT, Stoic philosophy, and emotional intelligence.\nThe user will input a personal journal entry.\n\nYour task:\n1. Detect their mood\n2. Analyze emotional clarity and articulation\n3. Offer 1 insight using CBT or Stoic wisdom\n4. Suggest 1 small action for tomorrow\n\nRespond in this JSON format:\n\x7b\n  \"mood\": \"...\",\n  \"clarityScore\": 0-10,\n  \"summary\": \"...\",\n  \"insight\": \"...\",\n  \"suggestedAction\": \"...\"\n\x7d\n"

/-- `get_ai_feedback(journal_text)`: one completion call with the fixed system
prompt and the journal text as user message; the generated text
(`response.choices[0].message.content`) is returned verbatim — the source
performs no parsing or validation of it. -/
def get_ai_feedback (complete : List ChatMessage → String)
    (journal_text : String) : String :=
  complete [⟨"system", feedback_system_prompt⟩, ⟨"user", journal_text⟩]

/-- `"\n\n---\n\n".join(relevant_entries)` (line 145 of the source). -/
def journalContext (relevant_entries : List String) : String :=
  String.intercalate "\n\n---\n\n" relevant_entries

/-- The f-string system prompt of `analyze_personality_and_respond`, as a
function of the interpolated `journal_context`. -/
def personality_system_prompt (journal_context : String) : String :=
  "\nYou are an AI psychologist and behavioral analyst with expertise in personality psychology, CBT, and emotional intelligence.\n\nYou have access to the user\x27s journal entries below. Based on these entries, you can understand their:\n- Personality patterns and traits\n- Emotional responses and triggers\n- Behavioral patterns\n- Coping mechanisms\n- Growth areas and strengths\n- Recurring themes in their life\n\nJOURNAL ENTRIES:\n"
    ++ journal_context
    ++ "\n\nNow the user is asking you a question about themselves. Your task:\n1. Analyze their personality and behavioral patterns from the journal entries\n2. Identify relevant patterns that relate to their question\n3. Provide personalized insights and suggestions\n4. Be compassionate, specific, and actionable\n\nAnswer their question based on what you observe in their writing patterns and experiences.\n"

/-- The fixed sentinel returned when retrieval finds nothing. -/
def no_entries_response : String :=
  "I don\x27t have enough journal entries from you yet to provide personalized insights. Please write a few more journal entries first!"

/-- Result of `analyze_personality_and_respond`: the response text and how
often the completion provider was invoked on this path. -/
structure AnalyzeResult where
  response : String
  completionCalls : Nat
deriving DecidableEq, Repr

/-- `analyze_personality_and_respond(user_id, user_question)`: retrieve with
`limit=8`; empty retrieval short-circuits to the fixed sentinel with no
completion call; otherwise the entries are joined into the context and one
completion call is made with the question as user message. -/
def analyze_personality_and_respond (db : List Record) (score : Record → Int)
    (out : SemOutcome) (complete : List ChatMessage → String)
    (user_id user_question : String) : AnalyzeResult :=
  let relevant_entries := (get_relevant_entries db score out user_id 8).texts
  if relevant_entries.isEmpty then
    ⟨no_entries_response, 0⟩
  else
    let journal_context := journalContext relevant_entries
    ⟨complete [⟨"system", personality_system_prompt journal_context⟩,
               ⟨"user", user_question⟩], 1⟩

/-- Qdrant upsert semantics: a point with the same id is overwritten, a fresh
id is appended. -/
def upsert (db : List Record) (r : Record) : List Record :=
  if db.any (fun x => x.id == r.id) then
    db.map (fun x => if x.id == r.id then r else x)
  else
    db ++ [r]

/-- Store state: the collection plus the position in the uuid4 stream (the
source draws `str(uuid.uuid4())`; we model the generator as a stream
`genUuid : Nat → String` indexed by `nextId`). -/
structure StoreState where
  db : List Record
  nextId : Nat
deriving Repr

/-- `store_journal_entry(user_id, journal_text)`: draw a fresh uuid, embed and
upsert one point whose payload is
`{page_content: journal_text, metadata: {user_id, timestamp: now, type: "journal"}}`,
return the id. -/
def store_journal_entry (genUuid : Nat → String) (now : Int) (s : StoreState)
    (user_id journal_text : String) : String × StoreState :=
  let point_id := genUuid s.nextId
  let r : Record := ⟨point_id, ⟨some user_id, some "journal", some now, some journal_text⟩⟩
  (point_id, ⟨upsert s.db r, s.nextId + 1⟩)

/-- Substring test on character lists (used only to state, following the
spec, a necessary condition for parseability into the feedback schema). -/
def hasSub (pat : List Char) : List Char → Bool
  | [] => pat == []
  | c :: t => pat.isPrefixOf (c :: t) || hasSub pat t

/-- Modelled from the spec: a necessary condition for a generated text to be
"parseable into the structured schema" with fields `mood`, `clarityScore`,
`summary`, `insight`, `suggestedAction` — every field name must at least occur
in the text.  (The source has no parsing code at all; this definition exists
only to compare the source against the spec.) -/
def specFeedbackFieldsPresent (s : String) : Bool :=
  ["mood", "clarityScore", "summary", "insight", "suggestedAction"].all
    (fun f => hasSub f.data s.data)

/-! ## Branch equations and basic lemmas -/

theorem get_relevant_entries_empty {db : List Record} {user_id : String}
    (score : Record → Int) (out : SemOutcome) (limit : Int)
    (h : (scroll db user_id).isEmpty = true) :
    get_relevant_entries db score out user_id limit = ⟨[], ⟨1, 0⟩⟩ := by
  unfold get_relevant_entries
  simp [h]

theorem get_relevant_entries_success {db : List Record} {user_id : String}
    (score : Record → Int) (limit : Int)
    (h : ¬ (scroll db user_id).isEmpty = true) :
    get_relevant_entries db score .success user_id limit =
      ⟨((rankBySim score (db.filter (isUserJournal user_id))).take
          (min limit ((scroll db user_id).length : Int)).toNat).map recordText,
        ⟨1, 1⟩⟩ := by
  unfold get_relevant_entries
  simp [h]

theorem get_relevant_entries_fallback {db : List Record} {user_id : String}
    (score : Record → Int) {out : SemOutcome} (limit : Int)
    (h : ¬ (scroll db user_id).isEmpty = true) (ho : out ≠ .success) :
    get_relevant_entries db score out user_id limit =
      ⟨(pyTake limit (sortRecent (scroll db user_id))).filterMap fallbackText,
        ⟨1, 1⟩⟩ := by
  unfold get_relevant_entries
  cases out with
  | success => exact absurd rfl ho
  | embedFail => simp [h]
  | searchFail => simp [h]

theorem mem_pyTake {a : α} {n : Int} {l : List α} (h : a ∈ pyTake n l) : a ∈ l := by
  unfold pyTake at h
  split at h <;> exact List.mem_of_mem_take h

theorem mem_scroll {r : Record} {db : List Record} {user_id : String}
    (h : r ∈ scroll db user_id) : r ∈ db ∧ isUserJournal user_id r = true := by
  unfold scroll at h
  have h' := List.mem_of_mem_take h
  exact ⟨(List.mem_filter.mp h').1, (List.mem_filter.mp h').2⟩

theorem mem_sortRecent {r : Record} {l : List Record} (h : r ∈ sortRecent l) :
    r ∈ l := by
  unfold sortRecent at h
  exact (List.mem_insertionSort _).mp h

theorem mem_rankBySim {r : Record} {score : Record → Int} {l : List Record}
    (h : r ∈ rankBySim score l) : r ∈ l := by
  unfold rankBySim at h
  exact (List.mem_insertionSort _).mp h

theorem sortRecent_sorted (l : List Record) :
    List.Sorted (fun a b => fallbackKey b ≤ fallbackKey a) (sortRecent l) := by
  haveI : IsTotal Record (fun a b => fallbackKey b ≤ fallbackKey a) :=
    ⟨fun a b => le_total (fallbackKey b) (fallbackKey a)⟩
  haveI : IsTrans Record (fun a b => fallbackKey b ≤ fallbackKey a) :=
    ⟨fun _ _ _ h1 h2 => le_trans h2 h1⟩
  exact List.sorted_insertionSort _ l

theorem pyTake_sorted {rel : Record → Record → Prop} {l : List Record}
    (n : Int) (h : List.Sorted rel l) : List.Sorted rel (pyTake n l) := by
  unfold pyTake
  split <;> exact List.Pairwise.sublist (List.take_sublist _ _) h

theorem fallbackText_eq_some {r : Record} {s : String}
    (h : fallbackText r = some s) :
    r.payload.page_content = some s ∧ s ≠ "" := by
  cases hpc : r.payload.page_content with
  | none => simp [fallbackText, hpc] at h
  | some t =>
    simp only [fallbackText, hpc] at h
    by_cases ht : (t == "") = true
    · rw [if_pos ht] at h; cases h
    · rw [if_neg ht] at h
      injection h with h'
      subst h'
      exact ⟨rfl, by simpa using ht⟩

/-- Every text produced by the fallback branch is the stored text of one of
the caller's own journal records. -/
theorem fallback_texts_source {db : List Record} {user_id : String}
    {limit : Int} {s : String}
    (hs : s ∈ (pyTake limit (sortRecent (scroll db user_id))).filterMap fallbackText) :
    ∃ r, r ∈ db ∧ isUserJournal user_id r = true ∧ recordText r = s := by
  obtain ⟨r, hr, hrt⟩ := List.mem_filterMap.mp hs
  obtain ⟨hdb, hj⟩ := mem_scroll (mem_sortRecent (mem_pyTake hr))
  obtain ⟨hpc, _⟩ := fallbackText_eq_some hrt
  exact ⟨r, hdb, hj, by simp [recordText, hpc]⟩

/-! ## Claims -/

/-- C1: cross-user isolation.  For every store, similarity score, semantic
outcome, user, and limit, every text returned by
`get_relevant_entries(user_id, query, limit)` is the `page_content` of a
record of the store that carries `metadata.user_id = user_id` and
`metadata.type = "journal"` — on the semantic path and on the recency
fallback alike, because both candidate sets are filtered by user and kind
before any ranking or truncation.  In particular no text of a record stored
under a different user is ever returned. -/
theorem C1_cross_user_isolation (db : List Record) (score : Record → Int)
    (out : SemOutcome) (user_id : String) (limit : Int) (s : String)
    (hs : s ∈ (get_relevant_entries db score out user_id limit).texts) :
    ∃ r, r ∈ db ∧ isUserJournal user_id r = true ∧ recordText r = s := by
  by_cases he : (scroll db user_id).isEmpty = true
  · rw [get_relevant_entries_empty score out limit he] at hs
    cases hs
  · cases out with
    | success =>
      rw [get_relevant_entries_success score limit he] at hs
      obtain ⟨r, hr, hrt⟩ := List.mem_map.mp hs
      have hr' := mem_rankBySim (List.mem_of_mem_take hr)
      have hm := List.mem_filter.mp hr'
      exact ⟨r, hm.1, hm.2, hrt⟩
    | embedFail =>
      rw [get_relevant_entries_fallback score limit he (fun hc => SemOutcome.noConfusion hc)] at hs
      exact fallback_texts_source hs
    | searchFail =>
      rw [get_relevant_entries_fallback score limit he (fun hc => SemOutcome.noConfusion hc)] at hs
      exact fallback_texts_source hs

/-- A store holding one entry of user `u1` and one entry of user `u2`. -/
def isolationDb : List Record :=
  [⟨"id1", ⟨some "u1", some "journal", some 5, some "hello"⟩⟩,
   ⟨"id2", ⟨some "u2", some "journal", some 6, some "secret"⟩⟩]

/-- Witness for C1: concretely, `"hello"` is returned for `u1` on the
semantic path over `isolationDb`, and the theorem places it inside `u1`'s own
records. -/
theorem C1_cross_user_isolation_witness :
    "hello" ∈ (get_relevant_entries isolationDb (fun _ => 0) .success "u1" 5).texts
      ∧ ∃ r, r ∈ isolationDb ∧ isUserJournal "u1" r = true ∧ recordText r = "hello" :=
  ⟨by decide,
   C1_cross_user_isolation isolationDb (fun _ => 0) .success "u1" 5 "hello" (by decide)⟩

/-- C2: recency fallback.  For a user with at least one scrolled entry and a
nonnegative limit, whenever the semantic step raises (embedding or search),
`get_relevant_entries` returns exactly the texts of the step-1 entries sorted
by descending timestamp and truncated to the first `limit`, skipping entries
whose `page_content` is absent or empty; the truncated prefix is sorted by
descending `fallbackKey`, and no returned text is empty.  The branch is a
total function of already-fetched data, so it cannot itself raise. -/
theorem C2_fallback_recency (db : List Record) (score : Record → Int)
    (out : SemOutcome) (user_id : String) (limit : Int)
    (hne : ¬ (scroll db user_id).isEmpty = true) (ho : out ≠ .success)
    (hl : 0 ≤ limit) :
    (get_relevant_entries db score out user_id limit).texts
        = ((sortRecent (scroll db user_id)).take limit.toNat).filterMap fallbackText
      ∧ List.Sorted (fun a b => fallbackKey b ≤ fallbackKey a)
          ((sortRecent (scroll db user_id)).take limit.toNat)
      ∧ ∀ s ∈ (get_relevant_entries db score out user_id limit).texts, s ≠ "" := by
  have hpt : pyTake limit (sortRecent (scroll db user_id))
      = (sortRecent (scroll db user_id)).take limit.toNat := by
    unfold pyTake
    rw [if_pos hl]
  refine ⟨?_, ?_, ?_⟩
  · rw [get_relevant_entries_fallback score limit hne ho, ← hpt]
  · exact List.Pairwise.sublist (List.take_sublist _ _) (sortRecent_sorted _)
  · intro s hs
    rw [get_relevant_entries_fallback score limit hne ho] at hs
    obtain ⟨r, _, hrt⟩ := List.mem_filterMap.mp hs
    exact (fallbackText_eq_some hrt).2

/-- A store with two entries of `u1`, timestamps 100 ("a") and 200 ("b"). -/
def recencyDb : List Record :=
  [⟨"id1", ⟨some "u1", some "journal", some 100, some "a"⟩⟩,
   ⟨"id2", ⟨some "u1", some "journal", some 200, some "b"⟩⟩]

/-- Witness for C2 at `recencyDb`, `limit = 5`, search failure: the fallback
equals the recency-sorted, truncated, non-empty texts. -/
theorem C2_fallback_recency_witness :
    (¬ (scroll recencyDb "u1").isEmpty = true) ∧ (0 : Int) ≤ 5
      ∧ ((get_relevant_entries recencyDb (fun _ => 0) .searchFail "u1" 5).texts
            = ((sortRecent (scroll recencyDb "u1")).take (5 : Int).toNat).filterMap fallbackText
          ∧ List.Sorted (fun a b => fallbackKey b ≤ fallbackKey a)
              ((sortRecent (scroll recencyDb "u1")).take (5 : Int).toNat)
          ∧ ∀ s ∈ (get_relevant_entries recencyDb (fun _ => 0) .searchFail "u1" 5).texts,
              s ≠ "") :=
  ⟨by decide, by decide,
   C2_fallback_recency recencyDb (fun _ => 0) .searchFail "u1" 5 (by decide)
     (fun hc => SemOutcome.noConfusion hc) (by decide)⟩

/-- C3 (amended): the `except Exception` around `vectorstore.similarity_search`
is a catch-all, and the query embedding happens inside that call, so an
embedding failure during the semantic step is recovered by the recency
fallback exactly like a search-backend fault — it is not propagated to the
caller.  The two failure modes yield identical results and calls. -/
theorem C3_amended_embed_failure_recovered (db : List Record)
    (score : Record → Int) (user_id : String) (limit : Int) :
    get_relevant_entries db score .embedFail user_id limit
      = get_relevant_entries db score .searchFail user_id limit := rfl

/-- Counterexample to C3 as stated: over `recencyDb`, an embedding failure
during the semantic step of `search(u1, q, 5)` does not surface — the call
returns the recency-fallback texts `["b", "a"]` as a normal value, exactly as
a search-backend fault would. -/
theorem C3_counterexample :
    (get_relevant_entries recencyDb (fun _ => 0) .embedFail "u1" 5).texts = ["b", "a"]
      ∧ get_relevant_entries recencyDb (fun _ => 0) .embedFail "u1" 5
          = get_relevant_entries recencyDb (fun _ => 0) .searchFail "u1" 5 :=
  ⟨by decide, rfl⟩

/-- C4 (amended): `limit <= 0` is not short-circuited by the source.  The
`qdrant.scroll` index scan runs on every invocation (one provider call even
for `limit <= 0`); only when the scan comes back empty is the result empty
with no further provider call; when the user has entries the embed-and-search
step is still attempted; and the result is guaranteed empty for `limit = 0`
(a negative limit can even return entries on the fallback path, by Python
slice semantics — see the counterexample). -/
theorem C4_amended_scan_always_runs (db : List Record) (score : Record → Int)
    (out : SemOutcome) (user_id : String) (limit : Int) (hl : limit ≤ 0) :
    (get_relevant_entries db score out user_id limit).calls.scrollCalls = 1
      ∧ ((scroll db user_id).isEmpty = true →
          (get_relevant_entries db score out user_id limit).texts = []
            ∧ (get_relevant_entries db score out user_id limit).calls.semanticCalls = 0)
      ∧ (¬ (scroll db user_id).isEmpty = true →
          (get_relevant_entries db score out user_id limit).calls.semanticCalls = 1)
      ∧ (limit = 0 → (get_relevant_entries db score out user_id limit).texts = []) := by
  by_cases he : (scroll db user_id).isEmpty = true
  · rw [get_relevant_entries_empty score out limit he]
    exact ⟨rfl, fun _ => ⟨rfl, rfl⟩, fun hc => absurd he hc, fun _ => rfl⟩
  · cases out with
    | success =>
      rw [get_relevant_entries_success score limit he]
      refine ⟨rfl, fun hc => absurd hc he, fun _ => rfl, fun h0 => ?_⟩
      subst h0
      have hk : (min (0 : Int) ((scroll db user_id).length : Int)).toNat = 0 :=
        Int.toNat_eq_zero.mpr (min_le_left _ _)
      simp [hk]
    | embedFail =>
      rw [get_relevant_entries_fallback score limit he (fun hc => SemOutcome.noConfusion hc)]
      refine ⟨rfl, fun hc => absurd hc he, fun _ => rfl, fun h0 => ?_⟩
      subst h0
      simp [pyTake]
    | searchFail =>
      rw [get_relevant_entries_fallback score limit he (fun hc => SemOutcome.noConfusion hc)]
      refine ⟨rfl, fun hc => absurd hc he, fun _ => rfl, fun h0 => ?_⟩
      subst h0
      simp [pyTake]

/-- Counterexample to C4 as stated: with `limit = 0` and a user with no
entries the result is empty but the calls are not zero — the index scan ran.
And with `limit = -1` over `recencyDb` on the fallback path the result is not
even empty: Python's `[: -1]` keeps all but the last recency-sorted entry. -/
theorem C4_counterexample :
    ((get_relevant_entries ([] : List Record) (fun _ => 0) .success "u1" 0).texts = []
        ∧ ¬ (get_relevant_entries ([] : List Record) (fun _ => 0) .success "u1" 0).calls
              = ⟨0, 0⟩)
      ∧ (get_relevant_entries recencyDb (fun _ => 0) .searchFail "u1" (-1)).texts = ["b"] :=
  ⟨⟨by decide, by decide⟩, by decide⟩

/-- Witness for the amended C4 at the empty store with `limit = 0`. -/
theorem C4_amended_scan_always_runs_witness :
    (0 : Int) ≤ 0
      ∧ ((get_relevant_entries ([] : List Record) (fun _ => 0) .success "u1" 0).calls.scrollCalls = 1
          ∧ ((scroll ([] : List Record) "u1").isEmpty = true →
              (get_relevant_entries ([] : List Record) (fun _ => 0) .success "u1" 0).texts = []
                ∧ (get_relevant_entries ([] : List Record) (fun _ => 0) .success "u1" 0).calls.semanticCalls = 0)
          ∧ (¬ (scroll ([] : List Record) "u1").isEmpty = true →
              (get_relevant_entries ([] : List Record) (fun _ => 0) .success "u1" 0).calls.semanticCalls = 1)
          ∧ ((0 : Int) = 0 →
              (get_relevant_entries ([] : List Record) (fun _ => 0) .success "u1" 0).texts = [])) :=
  ⟨by decide, C4_amended_scan_always_runs [] (fun _ => 0) .success "u1" 0 (by decide)⟩

theorem length_sortRecent (l : List Record) : (sortRecent l).length = l.length :=
  List.length_insertionSort _ _

theorem length_rankBySim (score : Record → Int) (l : List Record) :
    (rankBySim score l).length = l.length :=
  List.length_insertionSort _ _

theorem scroll_length_le (db : List Record) (user_id : String) :
    (scroll db user_id).length ≤ (db.filter (isUserJournal user_id)).length := by
  unfold scroll
  simp [List.length_take]

/-- C5 (amended): for every nonnegative `limit`, the number of texts returned
by `get_relevant_entries(user_id, query, limit)` is at most
`min(limit, entryCount(user_id))`, where `entryCount` is the number of
journal-kind records owned by the user — on the semantic path
(`k = min(limit, scrolled)` and the ranked candidate set is the user's filter
set) as well as on the recency fallback (slice of the scrolled set).  (For a
negative `limit` the bound fails on the fallback path; see the
counterexample.) -/
theorem C5_amended_length_bound (db : List Record) (score : Record → Int)
    (out : SemOutcome) (user_id : String) (limit : Int) (hl : 0 ≤ limit) :
    ((get_relevant_entries db score out user_id limit).texts.length : Int)
      ≤ min limit ((db.filter (isUserJournal user_id)).length : Int) := by
  have hS := scroll_length_le db user_id
  by_cases he : (scroll db user_id).isEmpty = true
  · rw [get_relevant_entries_empty score out limit he]
    simp only [List.length_nil]
    omega
  · have hfb : ∀ out' : SemOutcome, out' ≠ .success →
        ((get_relevant_entries db score out' user_id limit).texts.length : Int)
          ≤ min limit ((db.filter (isUserJournal user_id)).length : Int) := by
      intro out' ho
      rw [get_relevant_entries_fallback score limit he ho]
      dsimp only
      have h1 := List.length_filterMap_le fallbackText
        (pyTake limit (sortRecent (scroll db user_id)))
      have h2 : (pyTake limit (sortRecent (scroll db user_id))).length
          = min limit.toNat (scroll db user_id).length := by
        unfold pyTake
        rw [if_pos hl]
        simp [List.length_take, length_sortRecent]
      omega
    cases out with
    | success =>
      rw [get_relevant_entries_success score limit he]
      simp only [List.length_map, List.length_take, length_rankBySim]
      omega
    | embedFail => exact hfb _ (fun hc => SemOutcome.noConfusion hc)
    | searchFail => exact hfb _ (fun hc => SemOutcome.noConfusion hc)

/-- Witness for the amended C5 over `recencyDb` with `limit = 1`. -/
theorem C5_amended_length_bound_witness :
    (0 : Int) ≤ 1
      ∧ ((get_relevant_entries recencyDb (fun _ => 0) .success "u1" 1).texts.length : Int)
          ≤ min 1 ((recencyDb.filter (isUserJournal "u1")).length : Int) :=
  ⟨by decide, C5_amended_length_bound recencyDb (fun _ => 0) .success "u1" 1 (by decide)⟩

/-- Counterexample to C5 as stated: over `recencyDb` (two entries of `u1`)
with `limit = -1` on the fallback path the call returns one text, and
`1 ≤ min(-1, 2)` is false — the length bound does not hold for negative
limits. -/
theorem C5_counterexample :
    ¬ (((get_relevant_entries recencyDb (fun _ => 0) .searchFail "u1" (-1)).texts.length : Int)
        ≤ min (-1) ((recencyDb.filter (isUserJournal "u1")).length : Int)) := by
  decide

/-- C6: when retrieval (at the hard-coded `limit=8`) returns no texts — in
particular for a user with no stored entries — `analyze_personality_and_respond`
returns the fixed "not enough entries yet" sentinel as a normal result and
never invokes the completion provider on that path. -/
theorem C6_empty_retrieval_sentinel (db : List Record) (score : Record → Int)
    (out : SemOutcome) (complete : List ChatMessage → String)
    (user_id user_question : String)
    (h : (get_relevant_entries db score out user_id 8).texts = []) :
    analyze_personality_and_respond db score out complete user_id user_question
      = ⟨no_entries_response, 0⟩ := by
  unfold analyze_personality_and_respond
  simp [h]

/-- Witness for C6: a user with zero stored entries gets the sentinel and the
completion provider is not called. -/
theorem C6_empty_retrieval_sentinel_witness :
    (get_relevant_entries ([] : List Record) (fun _ => 0) .success "u1" 8).texts = []
      ∧ analyze_personality_and_respond ([] : List Record) (fun _ => 0) .success
          (fun _ => "generated") "u1" "What are my patterns?"
          = ⟨no_entries_response, 0⟩ :=
  ⟨by decide,
   C6_empty_retrieval_sentinel [] (fun _ => 0) .success (fun _ => "generated")
     "u1" "What are my patterns?" (by decide)⟩

/-- C7 (amended): `get_ai_feedback` forwards the journal text to the
completion provider under the fixed instructional prompt and returns the
generated text verbatim: there is no parsing into the five-field schema, no
validation of `clarityScore`, and no `MalformedResponseError` — whatever
string the provider produces is the result. -/
theorem C7_amended_feedback_verbatim :
    (∀ (complete : List ChatMessage → String) (journal_text : String),
        get_ai_feedback complete journal_text
          = complete [⟨"system", feedback_system_prompt⟩, ⟨"user", journal_text⟩])
      ∧ ∀ s journal_text : String, get_ai_feedback (fun _ => s) journal_text = s :=
  ⟨fun _ _ => rfl, fun _ _ => rfl⟩

/-- A free-form completion output that cannot parse into the structured
feedback schema (none of the five field names even occurs in it). -/
def freeFormReply : String := "Sounds like a rough day. Keep going!"

/-- Counterexample to C7 as stated: when the completion provider answers with
free-form text, `get_ai_feedback` returns that unparsed text as its normal
result — it neither produces a structured five-field payload nor fails. -/
theorem C7_counterexample :
    get_ai_feedback (fun _ => freeFormReply)
        "Today was exhausting but I learned something." = freeFormReply
      ∧ specFeedbackFieldsPresent freeFormReply = false :=
  ⟨rfl, by decide⟩

/-- Upserting a point whose id is absent from the collection appends it. -/
theorem upsert_fresh {db : List Record} {r : Record}
    (h : ∀ x ∈ db, x.id ≠ r.id) : upsert db r = db ++ [r] := by
  unfold upsert
  have hany : db.any (fun x => x.id == r.id) = false := by
    rw [List.any_eq_false]
    intro x hx
    simpa using h x hx
  rw [hany]
  simp

/-- Two successive stores with fresh ids append two fresh points. -/
theorem store_twice_db (genUuid : Nat → String)
    (hinj : Function.Injective genUuid) (s : StoreState)
    (hfresh : ∀ n : Nat, ∀ r ∈ s.db, r.id ≠ genUuid n)
    (user_id journal_text : String) (t1 t2 : Int) :
    (store_journal_entry genUuid t2
        (store_journal_entry genUuid t1 s user_id journal_text).2 user_id journal_text).2.db
      = s.db
          ++ [⟨genUuid s.nextId, ⟨some user_id, some "journal", some t1, some journal_text⟩⟩]
          ++ [⟨genUuid (s.nextId + 1), ⟨some user_id, some "journal", some t2, some journal_text⟩⟩] := by
  have hne : genUuid s.nextId ≠ genUuid (s.nextId + 1) := by
    intro hc
    have := hinj hc
    omega
  show upsert (upsert s.db _) _ = _
  rw [upsert_fresh (fun x hx => hfresh s.nextId x hx)]
  rw [upsert_fresh ?fresh2]
  · rfl
  case fresh2 =>
    intro y hy
    rcases List.mem_append.mp hy with hmem | hmem
    · exact hfresh (s.nextId + 1) y hmem
    · have : y = ⟨genUuid s.nextId, ⟨some user_id, some "journal", some t1, some journal_text⟩⟩ := by
        simpa using hmem
      subst this
      exact hne

/-- C8: `store_journal_entry` is not idempotent.  Assuming the uuid4 stream
never collides (injective generator, fresh with respect to the existing
collection), two successive calls with the same user and text return two
distinct ids and leave two distinct records in the collection, both matching
the user's journal filter and both carrying the stored text. -/
theorem C8_store_not_idempotent (genUuid : Nat → String)
    (hinj : Function.Injective genUuid) (s : StoreState)
    (hfresh : ∀ n : Nat, ∀ r ∈ s.db, r.id ≠ genUuid n)
    (user_id journal_text : String) (t1 t2 : Int) :
    (store_journal_entry genUuid t1 s user_id journal_text).1
        ≠ (store_journal_entry genUuid t2
            (store_journal_entry genUuid t1 s user_id journal_text).2 user_id journal_text).1
      ∧ ∃ ra ∈ (store_journal_entry genUuid t2
            (store_journal_entry genUuid t1 s user_id journal_text).2 user_id journal_text).2.db,
          ∃ rb ∈ (store_journal_entry genUuid t2
              (store_journal_entry genUuid t1 s user_id journal_text).2 user_id journal_text).2.db,
            ra ≠ rb
              ∧ ra.id = (store_journal_entry genUuid t1 s user_id journal_text).1
              ∧ rb.id = (store_journal_entry genUuid t2
                  (store_journal_entry genUuid t1 s user_id journal_text).2 user_id journal_text).1
              ∧ isUserJournal user_id ra = true ∧ isUserJournal user_id rb = true
              ∧ recordText ra = journal_text ∧ recordText rb = journal_text := by
  have hne : genUuid s.nextId ≠ genUuid (s.nextId + 1) := by
    intro hc
    have := hinj hc
    omega
  constructor
  · exact hne
  · rw [store_twice_db genUuid hinj s hfresh user_id journal_text t1 t2]
    refine ⟨⟨genUuid s.nextId, ⟨some user_id, some "journal", some t1, some journal_text⟩⟩, ?_,
            ⟨genUuid (s.nextId + 1), ⟨some user_id, some "journal", some t2, some journal_text⟩⟩, ?_,
            ?_, rfl, rfl, ?_, ?_, rfl, rfl⟩
    · simp
    · simp
    · intro hc
      exact hne (congrArg Record.id hc)
    · simp [isUserJournal]
    · simp [isUserJournal]

/-- A concrete collision-free uuid stream for the witness. -/
def uuidGen0 : Nat → String := fun n => String.mk (List.replicate n 'a')

theorem uuidGen0_injective : Function.Injective uuidGen0 := by
  intro a b h
  have h2 : (List.replicate a 'a').length = (List.replicate b 'a').length := by
    have hd : (String.mk (List.replicate a 'a')).data
        = (String.mk (List.replicate b 'a')).data := by
      rw [show String.mk (List.replicate a 'a') = String.mk (List.replicate b 'a') from h]
    simpa using congrArg List.length hd
  simpa using h2

/-- Witness for C8: storing `"hello"` twice for `u1` in an empty store. -/
theorem C8_store_not_idempotent_witness :
    Function.Injective uuidGen0
      ∧ ((store_journal_entry uuidGen0 10 ⟨[], 0⟩ "u1" "hello").1
            ≠ (store_journal_entry uuidGen0 20
                (store_journal_entry uuidGen0 10 ⟨[], 0⟩ "u1" "hello").2 "u1" "hello").1
          ∧ ∃ ra ∈ (store_journal_entry uuidGen0 20
                (store_journal_entry uuidGen0 10 ⟨[], 0⟩ "u1" "hello").2 "u1" "hello").2.db,
              ∃ rb ∈ (store_journal_entry uuidGen0 20
                  (store_journal_entry uuidGen0 10 ⟨[], 0⟩ "u1" "hello").2 "u1" "hello").2.db,
                ra ≠ rb
                  ∧ ra.id = (store_journal_entry uuidGen0 10 ⟨[], 0⟩ "u1" "hello").1
                  ∧ rb.id = (store_journal_entry uuidGen0 20
                      (store_journal_entry uuidGen0 10 ⟨[], 0⟩ "u1" "hello").2 "u1" "hello").1
                  ∧ isUserJournal "u1" ra = true ∧ isUserJournal "u1" rb = true
                  ∧ recordText ra = "hello" ∧ recordText rb = "hello") :=
  ⟨uuidGen0_injective,
   C8_store_not_idempotent uuidGen0 uuidGen0_injective ⟨[], 0⟩
     (fun _ r hr => absurd hr (List.not_mem_nil r)) "u1" "hello" 10 20⟩

/-! ## Context assembly (C9) -/

/-- The separator `"\n\n---\n\n"` as a character list. -/
def sepChars : List Char := "\n\n---\n\n".data

/-- Character-level form of Python's `sep.join`: first entry, then separator
followed by entry for each remaining one. -/
def joinCtx : List (List Char) → List Char
  | [] => []
  | a :: as => a ++ (as.map (fun x => sepChars ++ x)).flatten

theorem intercalate_go_data (s : String) (as : List String) (acc : String) :
    (String.intercalate.go acc s as).data
      = acc.data ++ (as.map (fun x => s.data ++ x.data)).flatten := by
  induction as generalizing acc with
  | nil => simp [String.intercalate.go]
  | cons a as ih =>
    rw [String.intercalate.go, ih]
    simp [String.data_append]

/-- `journalContext` is, at the character level, exactly `joinCtx`. -/
theorem journalContext_data (l : List String) :
    (journalContext l).data = joinCtx (l.map String.data) := by
  cases l with
  | nil => rfl
  | cons a as =>
    show (String.intercalate.go a "\n\n---\n\n" as).data = _
    rw [intercalate_go_data]
    simp [joinCtx, sepChars, List.map_map]
    rfl

/-- Peeling the newline-free head off a context: if what follows each head is
empty or starts with a newline, equal concatenations force equal heads. -/
theorem nlfree_append_inj : ∀ (a b s t : List Char),
    Char.ofNat 10 ∉ a → Char.ofNat 10 ∉ b →
    (s = [] ∨ s.head? = some (Char.ofNat 10)) →
    (t = [] ∨ t.head? = some (Char.ofNat 10)) →
    a ++ s = b ++ t → a = b ∧ s = t := by
  intro a
  induction a with
  | nil =>
    intro b s t _ hb hs _ h
    cases b with
    | nil => exact ⟨rfl, h⟩
    | cons d b' =>
      exfalso
      simp only [List.nil_append, List.cons_append] at h
      cases hs with
      | inl h0 => rw [h0] at h; cases h
      | inr h1 =>
        rw [h] at h1
        simp only [List.head?_cons, Option.some.injEq] at h1
        exact hb (h1 ▸ List.mem_cons_self d b')
  | cons c a' ih =>
    intro b s t ha hb hs ht h
    cases b with
    | nil =>
      exfalso
      simp only [List.nil_append, List.cons_append] at h
      cases ht with
      | inl h0 => rw [h0] at h; cases h
      | inr h1 =>
        rw [← h] at h1
        simp only [List.head?_cons, Option.some.injEq] at h1
        exact ha (h1 ▸ List.mem_cons_self c a')
    | cons d b' =>
      simp only [List.cons_append] at h
      injection h with hcd h'
      subst hcd
      have ha' : Char.ofNat 10 ∉ a' := fun hm => ha (List.mem_cons_of_mem _ hm)
      have hb' : Char.ofNat 10 ∉ b' := fun hm => hb (List.mem_cons_of_mem _ hm)
      obtain ⟨h1, h2⟩ := ih b' s t ha' hb' hs ht h'
      exact ⟨by rw [h1], h2⟩

theorem joinCtx_cons_tail (z : List Char) (zs : List (List Char)) :
    ((z :: zs).map (fun x => sepChars ++ x)).flatten = sepChars ++ joinCtx (z :: zs) := by
  simp [joinCtx, List.append_assoc]

theorem joinTail_headOk (zs : List (List Char)) :
    (zs.map (fun x => sepChars ++ x)).flatten = []
      ∨ ((zs.map (fun x => sepChars ++ x)).flatten).head? = some (Char.ofNat 10) := by
  cases zs with
  | nil => exact Or.inl rfl
  | cons z zs' => exact Or.inr rfl

/-- `joinCtx` is injective on lists of non-empty, newline-free entries. -/
theorem joinCtx_inj : ∀ (l1 l2 : List (List Char)),
    (∀ x ∈ l1, x ≠ [] ∧ Char.ofNat 10 ∉ x) →
    (∀ x ∈ l2, x ≠ [] ∧ Char.ofNat 10 ∉ x) →
    joinCtx l1 = joinCtx l2 → l1 = l2 := by
  intro l1
  induction l1 with
  | nil =>
    intro l2 _ h2 h
    cases l2 with
    | nil => rfl
    | cons y ys =>
      exfalso
      have hy := (h2 y (List.mem_cons_self y ys)).1
      simp only [joinCtx] at h
      exact hy (List.append_eq_nil.mp h.symm).1
  | cons x xs ih =>
    intro l2 h1 h2 h
    cases l2 with
    | nil =>
      exfalso
      have hx := (h1 x (List.mem_cons_self x xs)).1
      simp only [joinCtx] at h
      exact hx (List.append_eq_nil.mp h).1
    | cons y ys =>
      have hx := h1 x (List.mem_cons_self x xs)
      have hy := h2 y (List.mem_cons_self y ys)
      simp only [joinCtx] at h
      obtain ⟨hxy, hT⟩ :=
        nlfree_append_inj x y _ _ hx.2 hy.2 (joinTail_headOk xs) (joinTail_headOk ys) h
      subst hxy
      have htail : xs = ys := by
        cases xs with
        | nil =>
          cases ys with
          | nil => rfl
          | cons y' ys' =>
            exfalso
            rw [joinCtx_cons_tail] at hT
            simp [sepChars] at hT
        | cons x' xs' =>
          cases ys with
          | nil =>
            exfalso
            rw [joinCtx_cons_tail] at hT
            simp [sepChars] at hT
          | cons y' ys' =>
            rw [joinCtx_cons_tail, joinCtx_cons_tail] at hT
            exact ih (y' :: ys')
              (fun z hz => h1 z (List.mem_cons_of_mem _ hz))
              (fun z hz => h2 z (List.mem_cons_of_mem _ hz))
              (List.append_cancel_left hT)
      rw [htail]

/-- C9 (amended): the analysis context is the retrieved entries joined with
the explicit separator `"\n\n---\n\n"` in input order, and on entry sequences
that are non-empty and newline-free the assembly is unambiguous (injective).
The separator is not unambiguous in general: an entry containing the
separator (or suitable newlines) collides with a split sequence — see the
counterexample. -/
theorem C9_amended_context_join_injective (l1 l2 : List String)
    (h1 : ∀ s ∈ l1, s ≠ "" ∧ Char.ofNat 10 ∉ s.data)
    (h2 : ∀ s ∈ l2, s ≠ "" ∧ Char.ofNat 10 ∉ s.data)
    (h : journalContext l1 = journalContext l2) : l1 = l2 := by
  have hd : joinCtx (l1.map String.data) = joinCtx (l2.map String.data) := by
    rw [← journalContext_data, ← journalContext_data, h]
  have hmap := joinCtx_inj (l1.map String.data) (l2.map String.data)
    (by
      intro x hx
      obtain ⟨s, hs, rfl⟩ := List.mem_map.mp hx
      refine ⟨?_, (h1 s hs).2⟩
      intro hc
      exact (h1 s hs).1 (String.ext hc))
    (by
      intro x hx
      obtain ⟨s, hs, rfl⟩ := List.mem_map.mp hx
      refine ⟨?_, (h2 s hs).2⟩
      intro hc
      exact (h2 s hs).1 (String.ext hc))
    hd
  exact List.map_injective_iff.mpr (fun _ _ hab => String.ext hab) hmap

/-- Witness for the amended C9 on the separator-free entries `["a", "b"]`. -/
theorem C9_amended_context_join_injective_witness :
    (∀ s ∈ ["a", "b"], s ≠ "" ∧ Char.ofNat 10 ∉ s.data)
      ∧ (["a", "b"] : List String) = ["a", "b"] :=
  ⟨by decide,
   C9_amended_context_join_injective ["a", "b"] ["a", "b"] (by decide) (by decide) rfl⟩

/-- Counterexample to C9 as stated: an entry whose content contains the
separator is mistaken for it — the distinct sequences `["a\n\n---\n\nb"]` and
`["a", "b"]` assemble to the same context, so the joined form is not
injective on all orderings of entry texts. -/
theorem C9_counterexample :
    journalContext ["a\n\n---\n\nb"] = journalContext ["a", "b"]
      ∧ (["a\n\n---\n\nb"] : List String) ≠ ["a", "b"] :=
  ⟨rfl, by decide⟩

/-- The store of C10: for `u1`, a record with no timestamp but non-empty
text (`"old story"`), a record at t=100 with text `"a"`, and a record at
t=200 whose text is empty. -/
def gapDb : List Record :=
  [⟨"id3", ⟨some "u1", some "journal", none, some "old story"⟩⟩,
   ⟨"id5", ⟨some "u1", some "journal", some 100, some "a"⟩⟩,
   ⟨"id4", ⟨some "u1", some "journal", some 200, some ""⟩⟩]

/-- C10: on the fallback path the empty-text filter runs after the
`[:limit]` truncation, so with `limit = 2` over `gapDb` the call returns just
`["a"]` — strictly fewer than `min(limit, 2)` even though `u1` owns two
entries with non-empty text; and a record with no timestamp is keyed as 0,
so it sorts behind every positively-timestamped record
(`[200, 100, 0]` here), as `fallbackKey` maps a missing timestamp to 0. -/
theorem C10_truncate_before_text_filter :
    (get_relevant_entries gapDb (fun _ => 0) .searchFail "u1" 2).texts = ["a"]
      ∧ ((gapDb.filter (isUserJournal "u1")).filterMap fallbackText).length = 2
      ∧ (get_relevant_entries gapDb (fun _ => 0) .searchFail "u1" 2).texts.length
          < min 2 ((gapDb.filter (isUserJournal "u1")).filterMap fallbackText).length
      ∧ (sortRecent (scroll gapDb "u1")).map fallbackKey = [200, 100, 0]
      ∧ ∀ r : Record, r.payload.timestamp = none → fallbackKey r = 0 := by
  refine ⟨by decide, by decide, by decide, by decide, ?_⟩
  intro r hr
  simp [fallbackKey, hr]

/-- Witness for C10's universally quantified conjunct at a concrete record
with no timestamp. -/
theorem C10_truncate_before_text_filter_witness :
    (⟨"idw", ⟨some "u1", some "journal", none, some "w"⟩⟩ : Record).payload.timestamp = none
      ∧ fallbackKey ⟨"idw", ⟨some "u1", some "journal", none, some "w"⟩⟩ = 0 :=
  ⟨rfl, C10_truncate_before_text_filter.2.2.2.2
    ⟨"idw", ⟨some "u1", some "journal", none, some "w"⟩⟩ rfl⟩
